import Mathlib

/-!
Verification of the DoS_Simulator core (server_model.py, attack_sim.py,
batch_run.py / simulate_and_plot.py) against its specification.

Python floats are modelled as rationals; the exception monad models
raised errors; the numpy random generator and the wall clock are
modelled as explicit input streams, so all definitions are pure and
executable.
-/

/-- One simulated request: submission timestamp plus abstract cost
(server_model.py, class RequestEvent). -/
structure RequestEvent where
  timestamp : ℚ
  cost : ℚ
deriving DecidableEq, Repr

/-- The full mutable state of a ServerModel instance
(server_model.py, ServerModel.__init__). -/
structure ServerModel where
  capacity : ℚ
  warning_threshold : ℚ
  overload_threshold : ℚ
  queue : List RequestEvent
  processed : ℕ
  current_load : ℚ
  latencies : List ℚ
  dropped : ℕ
deriving DecidableEq, Repr

/-- ServerModel.__init__: fresh queue with the given configuration. -/
def ServerModel.init (processing_capacity_per_sec warning overload : ℚ) : ServerModel :=
  { capacity := processing_capacity_per_sec
    warning_threshold := warning
    overload_threshold := overload
    queue := []
    processed := 0
    current_load := 0
    latencies := []
    dropped := 0 }

/-- ServerModel.enqueue: append the request at the tail of the queue.
The Python code only checks the argument is a RequestEvent, which the
type system gives us for free; no other validation is performed. -/
def ServerModel.enqueue (s : ServerModel) (req : RequestEvent) : ServerModel :=
  { s with queue := s.queue ++ [req] }

/-- Result of the service while-loop inside ServerModel.step. -/
structure ServiceResult where
  remaining : List RequestEvent
  processed_cost : ℚ
  processed_count : ℕ
  step_latencies : List ℚ
deriving DecidableEq, Repr

/-- The while-loop of ServerModel.step (lines 73-79): pop requests from
the head while the accumulated cost of the next one still fits in the
capacity budget, recording one latency sample per serviced request. -/
def serviceLoop (capacity now : ℚ) : List RequestEvent → ℚ → ServiceResult
  | [], acc => ⟨[], acc, 0, []⟩
  | req :: rest, acc =>
    if acc + req.cost ≤ capacity then
      let r := serviceLoop capacity now rest (acc + req.cost)
      ⟨r.remaining, r.processed_cost, r.processed_count + 1,
        max 0 (now - req.timestamp) :: r.step_latencies⟩
    else ⟨req :: rest, acc, 0, []⟩

/-- Total cost of the requests currently queued
(sum(r.cost for r in self.queue)). -/
def queuedCostOf (l : List RequestEvent) : ℚ :=
  (l.map RequestEvent.cost).sum

/-- Rolling latency average over the most recent 100 samples
(lines 94-96); None when no sample was ever recorded. -/
def avgLatency (lats : List ℚ) : Option ℚ :=
  if lats = [] then none
  else some ((lats.drop (lats.length - 100)).sum / (min lats.length 100 : ℕ))

/-- The statistics dictionary returned by ServerModel.step. -/
structure StepStats where
  processed : ℕ
  queue_len : ℕ
  processed_cost : ℚ
  queued_cost : ℚ
  avg_latency : Option ℚ
  current_load_percent : ℚ
deriving DecidableEq, Repr

/-- ServerModel.step: validate dt, run the greedy FIFO service loop,
recompute the load estimate (clamped to [0, 1000]) and return the new
state with the statistics snapshot.  A raised ValueError becomes an
`Except.error`; since Python raises before touching any field, the
error branch carries no successor state and the caller keeps `s`. -/
def ServerModel.step (s : ServerModel) (dt now : ℚ) :
    Except String (ServerModel × StepStats) :=
  if dt ≤ 0 then .error "dt must be > 0"
  else
    let capacity := s.capacity * dt
    let r := serviceLoop capacity now s.queue 0
    let qcost := queuedCostOf r.remaining
    let load_percent : ℚ :=
      if 0 < capacity then qcost / capacity * 100
      else if 0 < qcost then 100 else 0
    let new_load := max 0 (min load_percent 1000)
    let lats := s.latencies ++ r.step_latencies
    .ok ({ s with
            queue := r.remaining
            processed := s.processed + r.processed_count
            current_load := new_load
            latencies := lats },
         { processed := r.processed_count
           queue_len := r.remaining.length
           processed_cost := r.processed_cost
           queued_cost := qcost
           avg_latency := avgLatency lats
           current_load_percent := new_load })

/-- ServerModel.get_state: classify the current load against the two
thresholds.  The method mutates nothing, which the embedding records by
returning the state unchanged alongside the classification. -/
def ServerModel.get_state (s : ServerModel) : (String × ℚ) × ServerModel :=
  (if s.current_load < s.warning_threshold then ("NORMAL", s.current_load)
   else if s.current_load < s.overload_threshold then ("CHARGÉ", s.current_load)
   else ("SURCHARGÉ", s.current_load), s)

/-- ServerModel.reset: clear queue, counters, load and latencies; the
configuration fields are untouched. -/
def ServerModel.reset (s : ServerModel) : ServerModel :=
  { s with queue := [], processed := 0, current_load := 0, latencies := [], dropped := 0 }

/-- States reachable from a freshly constructed ServerModel by any
sequence of enqueue / step / get_state / reset calls (enqueue accepting
arbitrary RequestEvent values, and step only when it succeeds). -/
inductive Reachable : ServerModel → Prop where
  | init (cap warn over : ℚ) : Reachable (ServerModel.init cap warn over)
  | enqueue {s : ServerModel} (req : RequestEvent) :
      Reachable s → Reachable (s.enqueue req)
  | step {s s' : ServerModel} {stats : StepStats} {dt now : ℚ} :
      Reachable s → s.step dt now = .ok (s', stats) → Reachable s'
  | get_state {s : ServerModel} : Reachable s → Reachable (s.get_state).2
  | reset {s : ServerModel} : Reachable s → Reachable s.reset

/-- Same reachable-state relation, but where every enqueued request has
non-negative cost (the hypothesis under which the backlog invariant of
the spec can hold). -/
inductive ReachableNN : ServerModel → Prop where
  | init (cap warn over : ℚ) : ReachableNN (ServerModel.init cap warn over)
  | enqueue {s : ServerModel} (req : RequestEvent) :
      0 ≤ req.cost → ReachableNN s → ReachableNN (s.enqueue req)
  | step {s s' : ServerModel} {stats : StepStats} {dt now : ℚ} :
      ReachableNN s → s.step dt now = .ok (s', stats) → ReachableNN s'
  | get_state {s : ServerModel} : ReachableNN s → ReachableNN (s.get_state).2
  | reset {s : ServerModel} : ReachableNN s → ReachableNN s.reset

/-- Number of head requests the greedy loop services, computed on costs
alone: the loop pops while the running total of the next cost stays
within the capacity budget. -/
def fitCount (capacity : ℚ) : List ℚ → ℚ → ℕ
  | [], _ => 0
  | c :: rest, acc =>
    if acc + c ≤ capacity then fitCount capacity rest (acc + c) + 1 else 0

/-- The service loop removes exactly the first `fitCount` requests: the
remaining queue is a suffix, the processed cost is the sum of the costs
of the serviced prefix, and the latency samples are those of the
serviced prefix in order. -/
theorem serviceLoop_eq (capacity now : ℚ) :
    ∀ (q : List RequestEvent) (acc : ℚ),
      serviceLoop capacity now q acc =
        ⟨q.drop (fitCount capacity (q.map RequestEvent.cost) acc),
         acc + ((q.take (fitCount capacity (q.map RequestEvent.cost) acc)).map
                  RequestEvent.cost).sum,
         fitCount capacity (q.map RequestEvent.cost) acc,
         (q.take (fitCount capacity (q.map RequestEvent.cost) acc)).map
           (fun r => max 0 (now - r.timestamp))⟩ := by
  intro q
  induction q with
  | nil => intro acc; simp [serviceLoop, fitCount]
  | cons req rest ih =>
    intro acc
    by_cases h : acc + req.cost ≤ capacity
    · simp only [serviceLoop, fitCount, List.map_cons, if_pos h, ih (acc + req.cost),
        ServiceResult.mk.injEq, List.drop_succ_cons, List.take_succ_cons, List.sum_cons]
      refine ⟨trivial, by ring, trivial, trivial⟩
    · simp [serviceLoop, fitCount, if_neg h]

/-- The running total after servicing the greedy prefix never exceeds
the capacity budget, provided the starting total is within it. -/
theorem fitCount_sum_le (capacity : ℚ) :
    ∀ (costs : List ℚ) (acc : ℚ), acc ≤ capacity →
      acc + ((costs.take (fitCount capacity costs acc)).sum) ≤ capacity := by
  intro costs
  induction costs with
  | nil => intro acc h; simpa [fitCount] using h
  | cons c rest ih =>
    intro acc h
    by_cases hc : acc + c ≤ capacity
    · have := ih (acc + c) hc
      simp only [fitCount, if_pos hc, List.take_succ_cons, List.sum_cons]
      calc acc + (c + (rest.take (fitCount capacity rest (acc + c))).sum)
          = (acc + c) + (rest.take (fitCount capacity rest (acc + c))).sum := by ring
        _ ≤ capacity := this
    · simpa [fitCount, if_neg hc] using h

/-- Python int() applied to a float: truncation toward zero. -/
def pyInt (q : ℚ) : ℤ :=
  if 0 ≤ q then ⌊q⌋ else ⌈q⌉

/-- Python float modulo for a positive divisor
(x % m = x - m * floor(x / m)). -/
def pyMod (x m : ℚ) : ℚ :=
  x - m * ⌊x / m⌋

/-- The configuration state of an Attacker (attack_sim.py,
Attacker.__init__).  The plotting attributes and the traffic log are
irrelevant to traffic generation and are omitted. -/
structure Attacker where
  attack_mode : String
  num_attackers : ℕ
  request_rate : ℚ
  duration : ℚ
  burst_intensity : ℚ
deriving DecidableEq, Repr

/-- Attacker.__init__: stores the arguments unconditionally.  No code
path raises, whatever the mode string; modelled in the exception monad
to record exactly that. -/
def Attacker.init (attack_mode : String) (num_attackers : ℕ)
    (request_rate duration burst_intensity : ℚ) : Except String Attacker :=
  .ok { attack_mode := attack_mode
        num_attackers := num_attackers
        request_rate := request_rate
        duration := duration
        burst_intensity := burst_intensity }

/-- Attacker.generate_constant_traffic:
int(request_rate * num_attackers), ignoring elapsed_time. -/
def Attacker.generate_constant_traffic (a : Attacker) (elapsed_time : ℚ) : ℤ :=
  pyInt (a.request_rate * a.num_attackers)

/-- The mean passed to np.random.poisson by
Attacker.generate_poisson_traffic (line 88):
lam = request_rate * num_attackers. -/
def Attacker.poissonMean (a : Attacker) (elapsed_time : ℚ) : ℚ :=
  a.request_rate * a.num_attackers

/-- Attacker.generate_poisson_traffic: draw from the Poisson sampler at
the mean computed by the code.  The numpy sampler is an explicit input
(a function from the mean to a count). -/
def Attacker.generate_poisson_traffic (a : Attacker) (sampler : ℚ → ℕ)
    (elapsed_time : ℚ) : ℕ :=
  sampler (a.poissonMean elapsed_time)

/-- Attacker.generate_burst_traffic: 10-second duty cycle, intense for
the first 5 seconds of each cycle, 20 percent of baseline otherwise. -/
def Attacker.generate_burst_traffic (a : Attacker) (elapsed_time : ℚ) : ℤ :=
  let burst_period : ℚ := 5
  let cycle_position := pyMod elapsed_time (burst_period * 2)
  if cycle_position < burst_period then
    pyInt (a.request_rate * a.num_attackers * a.burst_intensity)
  else
    pyInt (a.request_rate * a.num_attackers * (2 / 10))

/-- Attacker.generate_traffic: dispatch on the mode string; an
unrecognized mode raises ValueError here, at call time. -/
def Attacker.generate_traffic (a : Attacker) (sampler : ℚ → ℕ)
    (elapsed_time : ℚ) : Except String ℤ :=
  if a.attack_mode = "constant" then
    .ok (a.generate_constant_traffic elapsed_time)
  else if a.attack_mode = "poisson" then
    .ok (a.generate_poisson_traffic sampler elapsed_time)
  else if a.attack_mode = "burst" then
    .ok (a.generate_burst_traffic elapsed_time)
  else
    .error ("Mode d attaque non reconnu: " ++ a.attack_mode)

/-- One scenario configuration of batch_run.py (simulate_and_plot.py
uses the same shape with its module-level constants). -/
structure ScenarioCfg where
  duration_s : ℚ
  dt : ℚ
  attackers : ℕ
  rate : ℚ
  mean_cost : ℚ
  capacity : ℚ
  seed : ℕ
deriving DecidableEq, Repr

/-- The Poisson mean the batch driver uses for arrivals in one step
(batch_run.py line 41): lam = attackers * rate * dt. -/
def batchPoissonMean (cfg : ScenarioCfg) : ℚ :=
  cfg.attackers * cfg.rate * cfg.dt

/-- Enqueue one request per (timestamp, cost) pair, in order. -/
def enqueueArrivals (s : ServerModel) (reqs : List (ℚ × ℚ)) : ServerModel :=
  reqs.foldl (fun m p => m.enqueue ⟨p.1, p.2⟩) s

/-- The ordered output series of one driver run. -/
structure RunResult where
  times : List ℚ
  loads : List ℚ
  qlens : List ℕ
  latencies : List ℚ
deriving DecidableEq, Repr

/-- The per-step loop body of run_scenario, iterated `fuel` more times
starting at step index `i`.  `pd` is the seeded Poisson draw (step
index and mean to arrival count), `ed` the seeded exponential draw
(step index, arrival index and mean to cost); both are derived from the
seed alone.  `rc` and `sc` are the wall clocks read at enqueue time and
inside step — the only inputs not derived from the configuration. -/
def scenarioLoop (cfg : ScenarioCfg) (pd : ℕ → ℚ → ℕ) (ed : ℕ → ℕ → ℚ → ℚ)
    (rc : ℕ → ℕ → ℚ) (sc : ℕ → ℚ) :
    ℕ → ℕ → ServerModel → RunResult → Except String RunResult
  | 0, _, srv, acc => .ok { acc with latencies := srv.latencies }
  | fuel + 1, i, srv, acc =>
    let t : ℚ := (i : ℚ) * cfg.dt
    let arrivals := pd i (batchPoissonMean cfg)
    let srv1 := enqueueArrivals srv
      ((List.range arrivals).map (fun j => (rc i j, ed i j cfg.mean_cost)))
    match srv1.step cfg.dt (sc i) with
    | .error e => .error e
    | .ok (srv2, stats) =>
      let observed := srv2.get_state
      scenarioLoop cfg pd ed rc sc fuel (i + 1) observed.2
        { acc with
            times := acc.times ++ [t]
            loads := acc.loads ++ [observed.1.2]
            qlens := acc.qlens ++ [stats.queue_len] }

/-- run_scenario (batch_run.py lines 31-53): floor(duration / dt) steps
against a fresh ServerModel with the scenario capacity and the default
thresholds, returning the collected series and the final latency
list. -/
def runScenario (cfg : ScenarioCfg) (pd : ℕ → ℚ → ℕ) (ed : ℕ → ℕ → ℚ → ℚ)
    (rc : ℕ → ℕ → ℚ) (sc : ℕ → ℚ) : Except String RunResult :=
  scenarioLoop cfg pd ed rc sc (pyInt (cfg.duration_s / cfg.dt)).toNat 0
    (ServerModel.init cfg.capacity 70 90) ⟨[], [], [], []⟩

instance {ε α : Type} [DecidableEq ε] [DecidableEq α] :
    DecidableEq (Except ε α) := fun a b =>
  match a, b with
  | .ok x, .ok y => decidable_of_iff (x = y) (by simp)
  | .error x, .error y => decidable_of_iff (x = y) (by simp)
  | .ok _, .error _ => isFalse (by simp)
  | .error _, .ok _ => isFalse (by simp)

/-- Characterization of a successful step: with dt > 0 the call
succeeds, and the successor state and statistics are exactly those
produced by the greedy prefix of length `fitCount`. -/
theorem step_ok_spec (s : ServerModel) (dt now : ℚ) (hdt : 0 < dt) :
    s.step dt now =
      .ok (let k := fitCount (s.capacity * dt) (s.queue.map RequestEvent.cost) 0
           let rem := s.queue.drop k
           let qcost := queuedCostOf rem
           let lp : ℚ :=
             if 0 < s.capacity * dt then qcost / (s.capacity * dt) * 100
             else if 0 < qcost then 100 else 0
           let nl := max 0 (min lp 1000)
           let lats := s.latencies ++
             (s.queue.take k).map (fun r => max 0 (now - r.timestamp))
           ({ s with queue := rem, processed := s.processed + k,
                     current_load := nl, latencies := lats },
            { processed := k, queue_len := rem.length,
              processed_cost := 0 + ((s.queue.take k).map RequestEvent.cost).sum,
              queued_cost := qcost, avg_latency := avgLatency lats,
              current_load_percent := nl })) := by
  simp only [ServerModel.step, if_neg (not_le.mpr hdt), serviceLoop_eq]

/-- The clamp in step keeps the load estimate inside [0, 1000]. -/
theorem clamp_mem_range (lp : ℚ) :
    0 ≤ max 0 (min lp 1000) ∧ max 0 (min lp 1000) ≤ 1000 :=
  ⟨le_max_left 0 _, max_le (by norm_num) (min_le_right lp 1000)⟩

/-- A fixed ServerModel state used to instantiate theorems that carry
hypotheses: capacity 10, thresholds 70 / 90, two queued requests of
costs 2 and 3 submitted at time 0. -/
def wServer : ServerModel :=
  { capacity := 10, warning_threshold := 70, overload_threshold := 90
    queue := [⟨0, 2⟩, ⟨0, 3⟩], processed := 0, current_load := 0
    latencies := [], dropped := 0 }

/-- The state `wServer.step 1 0` produces: both requests serviced. -/
def wServerAfter : ServerModel :=
  { capacity := 10, warning_threshold := 70, overload_threshold := 90
    queue := [], processed := 2, current_load := 0
    latencies := [0, 0], dropped := 0 }

/-- The statistics `wServer.step 1 0` returns. -/
def wStats : StepStats :=
  { processed := 2, queue_len := 0, processed_cost := 5, queued_cost := 0
    avg_latency := some 0, current_load_percent := 0 }

/-- wServer is reachable: construct, then enqueue the two requests. -/
theorem wServer_reachable : Reachable wServer := by
  have h2 := Reachable.enqueue (⟨0, 3⟩ : RequestEvent)
    (Reachable.enqueue (⟨0, 2⟩ : RequestEvent) (Reachable.init 10 70 90))
  have he : ((ServerModel.init 10 70 90).enqueue ⟨0, 2⟩).enqueue ⟨0, 3⟩ = wServer := rfl
  rwa [he] at h2

/-- Concrete evaluation: one step of wServer services both requests. -/
theorem wStep_eval : wServer.step 1 0 = .ok (wServerAfter, wStats) := by
  norm_num [wServer, wServerAfter, wStats, ServerModel.step, serviceLoop,
    queuedCostOf, avgLatency]
  exact fun h => absurd h (by simp)

/-- C1: with non-negative request costs and dt > 0, the cost removed by
one step never exceeds capacity_per_second * dt.  (capacity is a
configured positive real per the data model; 0 ≤ capacity suffices.) -/
theorem step_processed_cost_le_capacity (s : ServerModel) (dt now : ℚ)
    (s' : ServerModel) (stats : StepStats)
    (hcost : ∀ r ∈ s.queue, 0 ≤ r.cost) (hcap : 0 ≤ s.capacity) (hdt : 0 < dt)
    (hstep : s.step dt now = .ok (s', stats)) :
    stats.processed_cost ≤ s.capacity * dt := by
  rw [step_ok_spec s dt now hdt] at hstep
  simp only [Except.ok.injEq, Prod.mk.injEq] at hstep
  obtain ⟨-, hst⟩ := hstep
  rw [← hst]
  have hcap2 : (0 : ℚ) ≤ s.capacity * dt := mul_nonneg hcap hdt.le
  have hmain := fitCount_sum_le (s.capacity * dt) (s.queue.map RequestEvent.cost) 0 hcap2
  simpa [List.map_take] using hmain

/-- C1 witness: the bound instantiated at the concrete state wServer
with dt = 1. -/
theorem step_processed_cost_le_capacity_concrete :
    wServer.step 1 0 = .ok (wServerAfter, wStats) ∧
      wStats.processed_cost ≤ wServer.capacity * 1 :=
  ⟨wStep_eval,
   step_processed_cost_le_capacity wServer 1 0 wServerAfter wStats
     (by norm_num [wServer]) (by norm_num [wServer]) (by norm_num) wStep_eval⟩

/-- C2: every successful step services exactly a prefix of the backlog
in arrival order — the serviced requests are the first k of the queue
(witnessed by their costs and latency samples in order) and the
remaining backlog is the original queue with that prefix removed. -/
theorem step_services_initial_segment (s : ServerModel) (dt now : ℚ)
    (s' : ServerModel) (stats : StepStats)
    (hstep : s.step dt now = .ok (s', stats)) :
    ∃ k, s'.queue = s.queue.drop k ∧ stats.processed = k ∧
      stats.processed_cost = ((s.queue.take k).map RequestEvent.cost).sum ∧
      s'.latencies = s.latencies ++
        (s.queue.take k).map (fun r => max 0 (now - r.timestamp)) := by
  by_cases hdt : dt ≤ 0
  · rw [ServerModel.step, if_pos hdt] at hstep
    exact absurd hstep (by simp)
  · rw [step_ok_spec s dt now (not_le.mp hdt)] at hstep
    simp only [Except.ok.injEq, Prod.mk.injEq] at hstep
    obtain ⟨hs, hst⟩ := hstep
    refine ⟨fitCount (s.capacity * dt) (s.queue.map RequestEvent.cost) 0,
      ?_, ?_, ?_, ?_⟩
    · rw [← hs]
    · rw [← hst]
    · rw [← hst]; exact zero_add _
    · rw [← hs]

/-- C2 witness: the prefix property instantiated at wServer, dt = 1. -/
theorem step_services_initial_segment_concrete :
    ∃ k, wServerAfter.queue = wServer.queue.drop k ∧ wStats.processed = k ∧
      wStats.processed_cost = ((wServer.queue.take k).map RequestEvent.cost).sum ∧
      wServerAfter.latencies = wServer.latencies ++
        (wServer.queue.take k).map (fun r => max 0 ((0 : ℚ) - r.timestamp)) :=
  step_services_initial_segment wServer 1 0 wServerAfter wStats wStep_eval

/-- C3: after every successful step the stored load equals the spec
formula — queued_cost / (capacity * dt) * 100 when capacity * dt > 0,
else 100 or 0 depending on queued_cost — clamped to [0, 1000]; and the
stored load lies in [0, 1000] in every reachable state. -/
theorem load_formula_and_range (s : ServerModel) :
    (∀ dt now s' stats, s.step dt now = .ok (s', stats) →
        s'.current_load =
          max 0 (min (if 0 < s.capacity * dt then
                        stats.queued_cost / (s.capacity * dt) * 100
                      else if 0 < stats.queued_cost then 100 else 0) 1000) ∧
        stats.current_load_percent = s'.current_load) ∧
    (Reachable s → 0 ≤ s.current_load ∧ s.current_load ≤ 1000) := by
  constructor
  · intro dt now s' stats hstep
    by_cases hdt : dt ≤ 0
    · rw [ServerModel.step, if_pos hdt] at hstep
      exact absurd hstep (by simp)
    · rw [step_ok_spec s dt now (not_le.mp hdt)] at hstep
      simp only [Except.ok.injEq, Prod.mk.injEq] at hstep
      obtain ⟨hs, hst⟩ := hstep
      rw [← hs, ← hst]
      exact ⟨rfl, rfl⟩
  · intro hr
    induction hr with
    | init cap warn over => simp [ServerModel.init]
    | enqueue req _ ih => simpa [ServerModel.enqueue] using ih
    | step hrs hstep ih =>
      rename_i s₀ s₁ stats dt now
      by_cases hdt : dt ≤ 0
      · rw [ServerModel.step, if_pos hdt] at hstep
        exact absurd hstep (by simp)
      · rw [step_ok_spec s₀ dt now (not_le.mp hdt)] at hstep
        simp only [Except.ok.injEq, Prod.mk.injEq] at hstep
        obtain ⟨hs, -⟩ := hstep
        rw [← hs]
        exact clamp_mem_range _
    | get_state _ ih => exact ih
    | reset _ ih => simp [ServerModel.reset]

/-- C3 witness: formula and range instantiated at wServer / dt = 1 and
at the reachable state wServer itself (reachable by two enqueues). -/
theorem load_formula_and_range_concrete :
    (wServerAfter.current_load =
      max 0 (min (if 0 < wServer.capacity * 1 then
                    wStats.queued_cost / (wServer.capacity * 1) * 100
                  else if 0 < wStats.queued_cost then 100 else 0) 1000)) ∧
    (0 ≤ wServer.current_load ∧ wServer.current_load ≤ 1000) :=
  ⟨((load_formula_and_range wServer).1 1 0 wServerAfter wStats wStep_eval).1,
   (load_formula_and_range wServer).2 wServer_reachable⟩

/-- C6: for every state and every dt ≤ 0, step raises ValueError before
touching any field — in the exception-monad embedding the call returns
an error and no successor state, so the caller keeps the state
unchanged. -/
theorem step_rejects_nonpositive_dt (s : ServerModel) (dt now : ℚ)
    (h : dt ≤ 0) :
    s.step dt now = .error "dt must be > 0" ∧
      ∀ s' stats, s.step dt now ≠ .ok (s', stats) := by
  have he : s.step dt now = .error "dt must be > 0" := by
    rw [ServerModel.step, if_pos h]
  exact ⟨he, fun s' stats hok => by rw [he] at hok; exact absurd hok (by simp)⟩

/-- C6 witness: rejection instantiated at wServer with dt = 0. -/
theorem step_rejects_nonpositive_dt_concrete :
    wServer.step 0 0 = .error "dt must be > 0" :=
  (step_rejects_nonpositive_dt wServer 0 0 (by norm_num)).1

/-- C10: get_state is a pure reader — it returns the load with its
threshold classification (NORMAL below warning, CHARGÉ between the
thresholds, SURCHARGÉ when at or above both) and leaves the state,
every field included, unchanged. -/
theorem get_state_pure_reader (s : ServerModel) :
    (s.get_state).2 = s ∧ (s.get_state).1.2 = s.current_load ∧
    (s.current_load < s.warning_threshold → (s.get_state).1.1 = "NORMAL") ∧
    (¬ s.current_load < s.warning_threshold →
      s.current_load < s.overload_threshold → (s.get_state).1.1 = "CHARGÉ") ∧
    (¬ s.current_load < s.warning_threshold →
      ¬ s.current_load < s.overload_threshold →
      (s.get_state).1.1 = "SURCHARGÉ") := by
  refine ⟨rfl, ?_, ?_, ?_, ?_⟩
  · simp only [ServerModel.get_state]
    split
    · rfl
    · split <;> rfl
  · intro h; simp [ServerModel.get_state, if_pos h]
  · intro h1 h2; simp [ServerModel.get_state, if_neg h1, if_pos h2]
  · intro h1 h2; simp [ServerModel.get_state, if_neg h1, if_neg h2]

/-- C10 witness: classification at wServer (load 0 below warning 70). -/
theorem get_state_pure_reader_concrete :
    (wServer.get_state).2 = wServer ∧ (wServer.get_state).1.1 = "NORMAL" :=
  ⟨(get_state_pure_reader wServer).1,
   (get_state_pure_reader wServer).2.2.1 (by norm_num [wServer])⟩

/-- An Attacker configured in poisson mode: 10 attackers, rate 100. -/
def pAttacker : Attacker :=
  { attack_mode := "poisson", num_attackers := 10, request_rate := 100
    duration := 60, burst_intensity := 5 }

/-- C4 counterexample: for dt = 1/2 the mean handed to the Poisson
sampler is request_rate * num_attackers = 1000, not the time-scaled
request_rate * num_attackers * dt = 500 the claim requires; the mean
does not depend on the step size at all. -/
theorem poisson_mean_not_time_scaled :
    pAttacker.poissonMean 0 = 1000 ∧
      ¬ pAttacker.poissonMean 0 =
        pAttacker.request_rate * pAttacker.num_attackers * (1 / 2) := by
  constructor <;> norm_num [pAttacker, Attacker.poissonMean]

/-- C4 amended: in poisson mode the Attacker draws from the sampler at
mean rate_per_attacker * attacker_count, independent of elapsed_time
and of any step size; only the batch driver separately samples with the
time-scaled mean attackers * rate * dt. -/
theorem poisson_mean_formula (a : Attacker) (sampler : ℚ → ℕ) (t : ℚ)
    (h : a.attack_mode = "poisson") :
    a.generate_traffic sampler t = .ok (a.generate_poisson_traffic sampler t) ∧
    a.generate_poisson_traffic sampler t =
      sampler (a.request_rate * a.num_attackers) ∧
    (∀ cfg : ScenarioCfg,
      batchPoissonMean cfg = cfg.attackers * cfg.rate * cfg.dt) := by
  refine ⟨?_, rfl, fun _ => rfl⟩
  simp [Attacker.generate_traffic, h]

/-- C4 amended witness: the dispatch instantiated at pAttacker. -/
theorem poisson_mean_formula_concrete :
    pAttacker.generate_traffic (fun _ => 7) 0 =
      .ok (pAttacker.generate_poisson_traffic (fun _ => 7) 0) :=
  (poisson_mean_formula pAttacker (fun _ => 7) 0 rfl).1

/-- The Attacker that Attacker.init builds from an unrecognized mode
string. -/
def badAttacker : Attacker :=
  { attack_mode := "bogus", num_attackers := 10, request_rate := 100
    duration := 60, burst_intensity := 5 }

/-- C5 counterexample: constructing an Attacker with the unrecognized
mode "bogus" succeeds (the constructor validates nothing), and the
error only appears later, at the first generate_traffic call. -/
theorem init_does_not_validate_mode :
    Attacker.init "bogus" 10 100 60 5 = .ok badAttacker ∧
      badAttacker.generate_traffic (fun _ => 0) 0 =
        .error ("Mode d attaque non reconnu: bogus") := by
  constructor
  · rfl
  · simp [Attacker.generate_traffic, badAttacker]

/-- C5 amended: construction never fails, whatever the mode string; an
unrecognized mode makes generate_traffic fail with ValueError at call
time, while the three recognized modes always generate successfully. -/
theorem mode_checked_at_first_use (mode : String) (n : ℕ)
    (rate dur bi : ℚ) (sampler : ℚ → ℕ) (t : ℚ) :
    (∃ a, Attacker.init mode n rate dur bi = .ok a ∧ a.attack_mode = mode) ∧
    (∀ a : Attacker, a.attack_mode ≠ "constant" → a.attack_mode ≠ "poisson" →
        a.attack_mode ≠ "burst" →
        a.generate_traffic sampler t =
          .error ("Mode d attaque non reconnu: " ++ a.attack_mode)) ∧
    (∀ a : Attacker, a.attack_mode = "constant" ∨ a.attack_mode = "poisson" ∨
        a.attack_mode = "burst" →
        ∃ k, a.generate_traffic sampler t = .ok k) := by
  refine ⟨⟨_, rfl, rfl⟩, ?_, ?_⟩
  · intro a h1 h2 h3
    simp [Attacker.generate_traffic, h1, h2, h3]
  · rintro a (h | h | h)
    · exact ⟨a.generate_constant_traffic t, by simp [Attacker.generate_traffic, h]⟩
    · exact ⟨(a.generate_poisson_traffic sampler t : ℤ),
        by simp [Attacker.generate_traffic, h]⟩
    · exact ⟨a.generate_burst_traffic t, by simp [Attacker.generate_traffic, h]⟩

/-- C5 amended witness: instantiated at badAttacker (unrecognized) and
pAttacker (recognized). -/
theorem mode_checked_at_first_use_concrete :
    badAttacker.generate_traffic (fun _ => 0) 0 =
      .error ("Mode d attaque non reconnu: " ++ badAttacker.attack_mode) :=
  (mode_checked_at_first_use "bogus" 10 100 60 5 (fun _ => 0) 0).2.1
    badAttacker (by decide) (by decide) (by decide)

/-- C8 counterexample: wServerAfter is reachable with processed = 2,
and reset drops processed back to 0 — processed_count decreases across
the reset operation, refuting monotonicity over all four operations. -/
theorem reset_decreases_processed :
    Reachable wServerAfter ∧ wServerAfter.processed = 2 ∧
      wServerAfter.reset.processed = 0 ∧
      ¬ wServerAfter.processed ≤ wServerAfter.reset.processed := by
  refine ⟨Reachable.step wServer_reachable wStep_eval, rfl, rfl, ?_⟩
  norm_num [ServerModel.reset, wServerAfter]

/-- C8 amended: processed_count never decreases across enqueue, step
and get_state; reset is the one exception, which clears it to 0. -/
theorem processed_monotone_without_reset (s : ServerModel) :
    (∀ req, (s.enqueue req).processed = s.processed) ∧
    (∀ dt now s' stats, s.step dt now = .ok (s', stats) →
        s.processed ≤ s'.processed) ∧
    (s.get_state).2.processed = s.processed ∧
    s.reset.processed = 0 := by
  refine ⟨fun req => rfl, ?_, rfl, rfl⟩
  intro dt now s' stats hstep
  by_cases hdt : dt ≤ 0
  · rw [ServerModel.step, if_pos hdt] at hstep
    exact absurd hstep (by simp)
  · rw [step_ok_spec s dt now (not_le.mp hdt)] at hstep
    simp only [Except.ok.injEq, Prod.mk.injEq] at hstep
    obtain ⟨hs, -⟩ := hstep
    rw [← hs]
    exact Nat.le_add_right _ _

/-- C8 amended witness: monotonicity across the concrete step of
wServer. -/
theorem processed_monotone_without_reset_concrete :
    wServer.processed ≤ wServerAfter.processed :=
  (processed_monotone_without_reset wServer).2.1 1 0 wServerAfter wStats
    wStep_eval

/-- A request with negative cost, as enqueue accepts it unchecked. -/
def negRequest : RequestEvent := ⟨0, -1⟩

/-- C9 counterexample: enqueue performs no cost validation, so a
reachable state (one enqueue after construction) holds a request of
cost -1 in its backlog, refuting the invariant for arbitrary Request
values. -/
theorem enqueue_admits_negative_cost :
    Reachable ((ServerModel.init 50 70 90).enqueue negRequest) ∧
      negRequest ∈ ((ServerModel.init 50 70 90).enqueue negRequest).queue ∧
      negRequest.cost < 0 := by
  refine ⟨Reachable.enqueue negRequest (Reachable.init 50 70 90), ?_, ?_⟩
  · simp [ServerModel.init, ServerModel.enqueue]
  · norm_num [negRequest]

/-- C9 amended: when every enqueued request has non-negative cost, the
backlog never contains a negative-cost request in any reachable
state — step only removes a prefix and reset clears the queue. -/
theorem backlog_nonneg_of_nonneg_enqueues (s : ServerModel)
    (h : ReachableNN s) : ∀ r ∈ s.queue, 0 ≤ r.cost := by
  induction h with
  | init cap warn over => simp [ServerModel.init]
  | enqueue req hc _ ih =>
    rename_i s₀ hnn
    intro r hr
    have hr2 : r ∈ s₀.queue ∨ r = req := by
      simpa [ServerModel.enqueue] using hr
    rcases hr2 with h1 | rfl
    · exact ih r h1
    · exact hc
  | step hrs hstep ih =>
    rename_i s₀ s₁ stats dt now
    intro r hr
    by_cases hdt : dt ≤ 0
    · rw [ServerModel.step, if_pos hdt] at hstep
      exact absurd hstep (by simp)
    · rw [step_ok_spec s₀ dt now (not_le.mp hdt)] at hstep
      simp only [Except.ok.injEq, Prod.mk.injEq] at hstep
      obtain ⟨hs, -⟩ := hstep
      rw [← hs] at hr
      exact ih r (List.mem_of_mem_drop hr)
  | get_state _ ih => exact ih
  | reset => simp [ServerModel.reset]

/-- C9 amended witness: the invariant applied to the one request held
by a state reached by a single non-negative enqueue. -/
theorem backlog_nonneg_concrete :
    (0 : ℚ) ≤ RequestEvent.cost ⟨0, 2⟩ :=
  backlog_nonneg_of_nonneg_enqueues
    ((ServerModel.init 50 70 90).enqueue ⟨0, 2⟩)
    (ReachableNN.enqueue ⟨0, 2⟩ (by norm_num) (ReachableNN.init 50 70 90))
    ⟨0, 2⟩ (by simp [ServerModel.init, ServerModel.enqueue])

/-- Observational agreement between two ServerModel states: all fields
coincide except the request timestamps in the queue and the latency
samples — exactly the wall-clock-derived data the spec excludes from
reproducibility. -/
def SameObs (s1 s2 : ServerModel) : Prop :=
  s1.capacity = s2.capacity ∧ s1.warning_threshold = s2.warning_threshold ∧
  s1.overload_threshold = s2.overload_threshold ∧
  s1.queue.map RequestEvent.cost = s2.queue.map RequestEvent.cost ∧
  s1.processed = s2.processed ∧ s1.current_load = s2.current_load ∧
  s1.dropped = s2.dropped

/-- get_state returns the current load in its second component,
whatever classification branch is taken. -/
theorem get_state_load (s : ServerModel) :
    (s.get_state).1.2 = s.current_load := by
  simp only [ServerModel.get_state]
  split
  · rfl
  · split <;> rfl

/-- Enqueueing request lists with the same costs (timestamps may
differ) preserves observational agreement. -/
theorem enqueueArrivals_sameObs :
    ∀ (l1 l2 : List (ℚ × ℚ)) (s1 s2 : ServerModel),
      l1.map Prod.snd = l2.map Prod.snd → SameObs s1 s2 →
      SameObs (enqueueArrivals s1 l1) (enqueueArrivals s2 l2) := by
  intro l1
  induction l1 with
  | nil =>
    intro l2 s1 s2 hmap hobs
    cases l2 with
    | nil => exact hobs
    | cons q rest2 => simp at hmap
  | cons p rest ih =>
    intro l2 s1 s2 hmap hobs
    cases l2 with
    | nil => simp at hmap
    | cons q rest2 =>
      simp only [List.map_cons, List.cons.injEq] at hmap
      obtain ⟨hpq, hrest⟩ := hmap
      apply ih rest2 _ _ hrest
      obtain ⟨h1, h2, h3, h4, h5, h6, h7⟩ := hobs
      exact ⟨h1, h2, h3, by simp [ServerModel.enqueue, h4, hpq], h5, h6, h7⟩

/-- Observationally equal states stepped with the same dt — but
possibly different wall clocks — both succeed and stay observationally
equal, with equal observable statistics. -/
theorem step_sameObs {s1 s2 : ServerModel} (dt n1 n2 : ℚ) (hdt : 0 < dt)
    (hobs : SameObs s1 s2) :
    ∃ s1p st1 s2p st2,
      s1.step dt n1 = .ok (s1p, st1) ∧ s2.step dt n2 = .ok (s2p, st2) ∧
      SameObs s1p s2p ∧ st1.processed = st2.processed ∧
      st1.queue_len = st2.queue_len ∧
      st1.processed_cost = st2.processed_cost ∧
      st1.queued_cost = st2.queued_cost ∧
      st1.current_load_percent = st2.current_load_percent ∧
      s1p.current_load = s2p.current_load := by
  obtain ⟨h1, h2, h3, h4, h5, h6, h7⟩ := hobs
  have hk : fitCount (s1.capacity * dt) (s1.queue.map RequestEvent.cost) 0
      = fitCount (s2.capacity * dt) (s2.queue.map RequestEvent.cost) 0 := by
    rw [h1, h4]
  have hdrop : (s1.queue.drop
        (fitCount (s1.capacity * dt) (s1.queue.map RequestEvent.cost) 0)).map
          RequestEvent.cost
      = (s2.queue.drop
        (fitCount (s2.capacity * dt) (s2.queue.map RequestEvent.cost) 0)).map
          RequestEvent.cost := by
    rw [List.map_drop, List.map_drop, h4, h1]
  have hlen : (s1.queue.drop
        (fitCount (s1.capacity * dt) (s1.queue.map RequestEvent.cost) 0)).length
      = (s2.queue.drop
        (fitCount (s2.capacity * dt) (s2.queue.map RequestEvent.cost) 0)).length := by
    have := congrArg List.length hdrop
    simpa [List.length_map] using this
  have hqcost : queuedCostOf (s1.queue.drop
        (fitCount (s1.capacity * dt) (s1.queue.map RequestEvent.cost) 0))
      = queuedCostOf (s2.queue.drop
        (fitCount (s2.capacity * dt) (s2.queue.map RequestEvent.cost) 0)) := by
    unfold queuedCostOf
    rw [hdrop]
  have htake : ((s1.queue.take
        (fitCount (s1.capacity * dt) (s1.queue.map RequestEvent.cost) 0)).map
          RequestEvent.cost).sum
      = ((s2.queue.take
        (fitCount (s2.capacity * dt) (s2.queue.map RequestEvent.cost) 0)).map
          RequestEvent.cost).sum := by
    rw [List.map_take, List.map_take, h4, h1]
  have hload : (if 0 < s1.capacity * dt then
        queuedCostOf (s1.queue.drop
          (fitCount (s1.capacity * dt) (s1.queue.map RequestEvent.cost) 0)) /
            (s1.capacity * dt) * 100
      else if 0 < queuedCostOf (s1.queue.drop
          (fitCount (s1.capacity * dt) (s1.queue.map RequestEvent.cost) 0)) then
        (100 : ℚ) else 0)
      = (if 0 < s2.capacity * dt then
        queuedCostOf (s2.queue.drop
          (fitCount (s2.capacity * dt) (s2.queue.map RequestEvent.cost) 0)) /
            (s2.capacity * dt) * 100
      else if 0 < queuedCostOf (s2.queue.drop
          (fitCount (s2.capacity * dt) (s2.queue.map RequestEvent.cost) 0)) then
        (100 : ℚ) else 0) := by
    rw [hqcost, h1]
  rw [step_ok_spec s1 dt n1 hdt, step_ok_spec s2 dt n2 hdt]
  refine ⟨_, _, _, _, rfl, rfl,
    ⟨h1, h2, h3, hdrop, by rw [h5, hk], by rw [hload], h7⟩,
    by rw [hk], hlen, by rw [htake], hqcost, by rw [hload], by rw [hload]⟩

/-- The driver loop's observable output — times, loads, queue
lengths — does not depend on the two wall clocks, only on the
configuration and the seed-derived draw streams. -/
theorem scenarioLoop_clock_independent (cfg : ScenarioCfg)
    (pd : ℕ → ℚ → ℕ) (ed : ℕ → ℕ → ℚ → ℚ)
    (rc1 rc2 : ℕ → ℕ → ℚ) (sc1 sc2 : ℕ → ℚ) (hdt : 0 < cfg.dt) :
    ∀ (fuel i : ℕ) (srv1 srv2 : ServerModel) (acc1 acc2 : RunResult),
      SameObs srv1 srv2 → acc1.times = acc2.times →
      acc1.loads = acc2.loads → acc1.qlens = acc2.qlens →
      ∃ r1 r2, scenarioLoop cfg pd ed rc1 sc1 fuel i srv1 acc1 = .ok r1 ∧
        scenarioLoop cfg pd ed rc2 sc2 fuel i srv2 acc2 = .ok r2 ∧
        r1.times = r2.times ∧ r1.loads = r2.loads ∧ r1.qlens = r2.qlens := by
  intro fuel
  induction fuel with
  | zero =>
    intro i s1 s2 a1 a2 hobs ht hl hq
    exact ⟨_, _, rfl, rfl, ht, hl, hq⟩
  | succ n ih =>
    intro i s1 s2 a1 a2 hobs ht hl hq
    have hmap : ((List.range (pd i (batchPoissonMean cfg))).map
          (fun j => (rc1 i j, ed i j cfg.mean_cost))).map Prod.snd
        = ((List.range (pd i (batchPoissonMean cfg))).map
          (fun j => (rc2 i j, ed i j cfg.mean_cost))).map Prod.snd := by
      simp [List.map_map, Function.comp]
    obtain ⟨s1p, st1, s2p, st2, he1, he2, hobs2, hp, hql, hpc, hqc, hcl, hload⟩ :=
      step_sameObs cfg.dt (sc1 i) (sc2 i) hdt
        (enqueueArrivals_sameObs _ _ _ _ hmap hobs)
    simp only [scenarioLoop, he1, he2]
    exact ih (i + 1) s1p s2p _ _ hobs2
      (by simp [ht]) (by simp [hl, get_state_load, hload]) (by simp [hq, hql])

/-- C7: two driver runs with identical configuration and the same seed
(hence identical seed-derived Poisson and exponential draw streams pd
and ed) produce identical times, loads and queue_lengths series,
element for element, whatever the wall clocks rc / sc read during each
run — only the latency values may differ. -/
theorem run_deterministic_up_to_clock (cfg : ScenarioCfg)
    (pd : ℕ → ℚ → ℕ) (ed : ℕ → ℕ → ℚ → ℚ)
    (rc1 rc2 : ℕ → ℕ → ℚ) (sc1 sc2 : ℕ → ℚ) (hdt : 0 < cfg.dt) :
    ∃ r1 r2, runScenario cfg pd ed rc1 sc1 = .ok r1 ∧
      runScenario cfg pd ed rc2 sc2 = .ok r2 ∧
      r1.times = r2.times ∧ r1.loads = r2.loads ∧ r1.qlens = r2.qlens :=
  scenarioLoop_clock_independent cfg pd ed rc1 rc2 sc1 sc2 hdt
    (pyInt (cfg.duration_s / cfg.dt)).toNat 0 _ _ _ _
    ⟨rfl, rfl, rfl, rfl, rfl, rfl, rfl⟩ rfl rfl rfl

/-- The scenario configuration used to instantiate the determinism
theorem: 2 seconds at dt = 1, capacity 10. -/
def wCfg : ScenarioCfg :=
  { duration_s := 2, dt := 1, attackers := 1, rate := 1, mean_cost := 1
    capacity := 10, seed := 0 }

/-- C7 witness: determinism instantiated at wCfg with one arrival of
cost 1 per step and two different wall clocks. -/
theorem run_deterministic_up_to_clock_concrete :
    ∃ r1 r2,
      runScenario wCfg (fun _ _ => 1) (fun _ _ _ => 1) (fun _ _ => 0)
        (fun _ => 0) = .ok r1 ∧
      runScenario wCfg (fun _ _ => 1) (fun _ _ _ => 1) (fun _ _ => 5)
        (fun _ => 9) = .ok r2 ∧
      r1.times = r2.times ∧ r1.loads = r2.loads ∧ r1.qlens = r2.qlens :=
  run_deterministic_up_to_clock wCfg (fun _ _ => 1) (fun _ _ _ => 1)
    (fun _ _ => 0) (fun _ _ => 5) (fun _ => 0) (fun _ => 9) (by norm_num [wCfg])
